import Mathlib

/-!
Verification development for the Private-Local-AI-Assistant repository.

The Python sources under `src/` are embedded shallowly:

* `src/src/services/ai_service.py`      → namespace `AIService`
* `src/src/services/database_manager.py`→ namespace `DatabaseManager`
* `src/src/services/pdf_service.py`     → namespace `PDFService`
* `src/src/app.py`                      → namespace `App`

Python strings are modelled as Lean `String`s (all relevant operations act on
the underlying character list, matching Python's `str` semantics on the ASCII
inputs this program manipulates); the Ollama backend is an oracle
`String → BackendOutcome`; exceptions are represented by `Except`/outcome
constructors; the SQLite tables are lists of records.
-/

namespace Py

/-- Python `str.split()` with no argument: split on whitespace and discard
empty pieces (split at every whitespace character, then drop the empties that
arise from runs and edges). -/
def splitWsChars (cs : List Char) : List (List Char) :=
  (cs.foldr
    (fun c acc =>
      if c.isWhitespace then [] :: acc
      else
        match acc with
        | [] => [[c]]
        | w :: ws => (c :: w) :: ws)
    [[]]).filter (fun w => w ≠ [])

/-- Python `str.split(sep)` for a single-character separator: split at every
occurrence, keeping empty pieces (so `"".split(sep) = [""]`). -/
def splitCharAux (sep : Char) : List Char → List (List Char)
  | [] => [[]]
  | c :: cs =>
    let r := splitCharAux sep cs
    if c = sep then [] :: r
    else
      match r with
      | [] => [[c]]
      | p :: ps => (c :: p) :: ps

def splitChar (sep : Char) (s : String) : List String :=
  (splitCharAux sep s.toList).map List.asString

def splitWs (s : String) : List String :=
  (splitWsChars s.toList).map List.asString

/-- Python `str.strip()` (strip whitespace from both edges). -/
def stripWsChars (cs : List Char) : List Char :=
  ((cs.dropWhile Char.isWhitespace).reverse.dropWhile Char.isWhitespace).reverse

def strip (s : String) : String :=
  (stripWsChars s.toList).asString

/-- Python `str.strip(chars)` for an explicit character set. -/
def stripSetChars (set : List Char) (cs : List Char) : List Char :=
  ((cs.dropWhile (· ∈ set)).reverse.dropWhile (· ∈ set)).reverse

def stripSet (set : List Char) (s : String) : String :=
  (stripSetChars set s.toList).asString

/-- Python `str.lower()` (ASCII; the program's data is ASCII). -/
def lower (s : String) : String :=
  (s.toList.map Char.toLower).asString

/-- Python `len(s)` — number of characters. -/
def strLen (s : String) : Nat := s.toList.length

/-- Python `s[:n]`. -/
def take (n : Nat) (s : String) : String := (s.toList.take n).asString

/-- Substring test (`needle in hay` for Python, `LIKE '%needle%'` for SQLite
on patterns without wildcard characters). -/
def containsSub (needle : List Char) : List Char → Bool
  | [] => needle.isEmpty
  | c :: rest => needle.isPrefixOf (c :: rest) || containsSub needle rest

/-- Python `str.replace(pat, repl)` for a non-empty pattern: replace all
non-overlapping occurrences, scanning left to right. `skip` counts characters
of an already-replaced occurrence still to be consumed. -/
def replaceCharsAux (pat repl : List Char) : Nat → List Char → List Char
  | _, [] => []
  | skip + 1, _ :: rest => replaceCharsAux pat repl skip rest
  | 0, c :: rest =>
    if pat ≠ [] ∧ pat.isPrefixOf (c :: rest) then
      repl ++ replaceCharsAux pat repl (pat.length - 1) rest
    else
      c :: replaceCharsAux pat repl 0 rest

def replaceChars (pat repl cs : List Char) : List Char :=
  replaceCharsAux pat repl 0 cs

def replace (s pat repl : String) : String :=
  (replaceChars pat.toList repl.toList s.toList).asString

/-- Python `str.title()`: a letter is upper-cased when the previous character
is not a letter, lower-cased otherwise (ASCII). -/
def titleChars : List Char → Bool → List Char
  | [], _ => []
  | c :: cs, prevAlpha =>
    (if c.isAlpha then (if prevAlpha then c.toLower else c.toUpper) else c)
      :: titleChars cs c.isAlpha

def title (s : String) : String :=
  (titleChars s.toList false).asString

/-- Keep the first occurrence of each element (insertion order of a Python
`collections.Counter`); `seen` holds the elements already emitted. -/
def dedupKeepFirstAux (seen : List String) : List String → List String
  | [] => []
  | x :: xs =>
    if x ∈ seen then dedupKeepFirstAux seen xs
    else x :: dedupKeepFirstAux (x :: seen) xs

def dedupKeepFirst (l : List String) : List String :=
  dedupKeepFirstAux [] l

/-- Number of occurrences of `s` in `l` (a `Counter` count). -/
def countOcc (l : List String) (s : String) : Nat :=
  (l.filter (fun y => y = s)).length

/-- Leftmost element of `b :: l` with the maximal count (later elements
replace the current best only when strictly greater). -/
def leftmostMax (counts : String → Nat) : String → List String → String
  | b, [] => b
  | b, y :: ys => leftmostMax counts (if counts y > counts b then y else b) ys

/-- Python `Counter.most_common(n)` over distinct elements `l` with the given
counts: repeatedly pick the leftmost element of maximal count (`heapq.nlargest`
is stable, so ties are broken by first-occurrence order). -/
def mostCommon (counts : String → Nat) : Nat → List String → List String
  | _, [] => []
  | 0, _ => []
  | n + 1, x :: xs =>
    leftmostMax counts x xs :: mostCommon counts n ((x :: xs).erase (leftmostMax counts x xs))

end Py

/-! ## Configuration (`src/src/config/config.py`, default environment) -/

namespace Config

def MAX_KEYWORDS : Nat := 5
def MIN_KEYWORDS : Nat := 3

end Config

/-! ## AIService (`src/src/services/ai_service.py`) -/

namespace AIService

/-- Outcome of the `ollama.chat` call as observed by `extract_keywords`:
`ok content` — a response carrying `message.content`;
`malformed` — a falsy response or one missing the `message` key
(`if not response or 'message' not in response`);
`failure` — an exception raised by the call (network failure, missing
backend, or an error while reading the reply). -/
inductive BackendOutcome where
  | ok (content : String)
  | malformed
  | failure
deriving DecidableEq, Repr

/-- `Config.KEYWORD_EXTRACTION_PROMPT.format(text=..., min_keywords=3, max_keywords=5)`. -/
def keywordExtractionPrompt (text : String) : String :=
  "\n    Extract 3 to 5 keywords from the following student message. \n    Write only separated by commas. Do not form sentences.\n\n    Text: \"" ++ text ++ "\"\n    "

/-- Reply parsing in `extract_keywords`: strip the content, split on commas,
strip each fragment, keep the non-empty ones
(`[kw.strip() for kw in keywords_text.split(',') if kw.strip()]`). -/
def parseKeywords (content : String) : List String :=
  ((Py.splitChar ',' (Py.strip content)).map Py.strip).filter (fun kw => kw ≠ "")

/-- Count check in `extract_keywords`: below `MIN_KEYWORDS` only a warning is
logged; above `MAX_KEYWORDS` the list is cut to the first `MAX_KEYWORDS`. -/
def clipKeywords (kws : List String) : List String :=
  if kws.length < Config.MIN_KEYWORDS then kws
  else if kws.length > Config.MAX_KEYWORDS then kws.take Config.MAX_KEYWORDS
  else kws

/-- The `stop_words` set of `_fallback_keyword_extraction`. -/
def stop_words : List String :=
  ["and", "or", "with", "for", "this", "a", "an", "the", "is", "are",
   "i", "you", "he", "she", "it", "we", "they", "what", "how", "where",
   "which", "who", "why", "because", "but", "however", "although",
   "want", "need", "make", "do", "get", "have", "give", "take"]

/-- The punctuation set stripped from token edges:
`word.strip('.,!?;:()[]{}"\'-')`. -/
def punctSet : List Char :=
  ['.', ',', '!', '?', ';', ':', '(', ')', '[', ']', '\x7b', '\x7d', '\"', '\'', '-']

/-- The filtered token list of `_fallback_keyword_extraction`: lower-case,
split on whitespace, strip the punctuation set from each token's edges, keep
tokens that are non-empty, not stop words, and longer than 2 characters. -/
def fallbackTokens (text : String) : List String :=
  ((Py.splitWs (Py.lower text)).map (Py.stripSet punctSet)).filter
    (fun w => w ≠ "" ∧ w ∉ stop_words ∧ Py.strLen w > 2)

/-- `AIService._fallback_keyword_extraction`: filtered tokens are counted with
`collections.Counter` and the `MAX_KEYWORDS` most common are returned
(ties broken by first-occurrence order, as `Counter`/`heapq.nlargest` do). -/
def fallback_keyword_extraction (text : String) : List String :=
  Py.mostCommon (Py.countOcc (fallbackTokens text)) Config.MAX_KEYWORDS
    (Py.dedupKeepFirst (fallbackTokens text))

/-- `AIService.extract_keywords`, with the `ollama.chat` call abstracted as an
oracle from the prompt to a `BackendOutcome`. Blank input returns `[]` before
any backend call; a malformed response returns `[]`; an exception anywhere in
the `try` block falls back to `_fallback_keyword_extraction`. -/
def extract_keywords (backend : String → BackendOutcome) (text : String) : List String :=
  if Py.strip text = "" then []
  else
    match backend (keywordExtractionPrompt text) with
    | .ok content => clipKeywords (parseKeywords content)
    | .malformed => []
    | .failure => fallback_keyword_extraction text

/-- `extract_keywords` instrumented with the number of `ollama.chat`
invocations it performs (0 or 1). -/
def extract_keywords_traced (backend : String → BackendOutcome) (text : String) :
    List String × Nat :=
  if Py.strip text = "" then ([], 0)
  else
    (match backend (keywordExtractionPrompt text) with
     | .ok content => clipKeywords (parseKeywords content)
     | .malformed => []
     | .failure => fallback_keyword_extraction text, 1)

end AIService

/-! ## DatabaseManager (`src/src/services/database_manager.py`)

The SQLite tables are modelled as lists of records. `filename` carries a
`UNIQUE` constraint in `create_tables`; `INSERT OR REPLACE` therefore deletes
any row with the same filename before inserting the new one. Auto-increment
ids are modelled as one more than the largest id present. The Python `set`
used by the search functions is modelled by `List.dedup` (membership and
multiplicity are what the code guarantees; SQLite row order and Python set
iteration order are unspecified). SQLite `LIKE '%kw%'` is case-insensitive on
ASCII, modelled as a substring test on lower-cased strings (the program's
keywords contain no `%`/`_` wildcards). -/

namespace DatabaseManager

/-- A row of the `courses` table as selected by the search
(`SELECT name, description FROM courses`); `keywords` participates in
matching. Timestamps are not consulted by any embedded operation. -/
structure Course where
  name : String
  description : String
  keywords : String
deriving DecidableEq, Repr

/-- A row of the `pdf_documents` table (timestamp columns omitted: no
embedded operation reads them). -/
structure PdfDocument where
  id : Nat
  filename : String
  file_path : String
  title : String
  extracted_text : String
  extracted_keywords : String
  summary : String
  file_size : Nat
  analysis_status : String
deriving DecidableEq, Repr

/-- The columns of `SELECT id, filename, title, extracted_keywords, summary`
returned by `search_pdf_documents_by_keywords`. -/
structure PdfSearchRow where
  id : Nat
  filename : String
  title : String
  extracted_keywords : String
  summary : String
deriving DecidableEq, Repr

def selectRow (r : PdfDocument) : PdfSearchRow :=
  ⟨r.id, r.filename, r.title, r.extracted_keywords, r.summary⟩

/-- `column LIKE '%kw%'` (SQLite, ASCII case-insensitive). -/
def likeCI (field kw : String) : Bool :=
  Py.containsSub (Py.lower kw).toList (Py.lower field).toList

/-- The WHERE clause of `search_courses_by_keywords`:
`keywords LIKE ? OR description LIKE ? OR name LIKE ?`. -/
def courseMatches (c : Course) (kw : String) : Bool :=
  likeCI c.keywords kw || likeCI c.description kw || likeCI c.name kw

/-- The WHERE clause of `search_pdf_documents_by_keywords`:
`extracted_keywords LIKE ? OR title LIKE ? OR summary LIKE ?`. -/
def docMatches (r : PdfDocument) (kw : String) : Bool :=
  likeCI r.extracted_keywords kw || likeCI r.title kw || likeCI r.summary kw

/-- `DatabaseManager.search_courses_by_keywords`: empty keyword list returns
`[]`; otherwise each keyword's matches are accumulated into a set and the set
is returned as a list. -/
def search_courses_by_keywords (db : List Course) (keywords : List String) :
    List Course :=
  if keywords.isEmpty then []
  else ((keywords.map (fun kw => db.filter (fun c => courseMatches c kw))).flatten).dedup

/-- `DatabaseManager.search_pdf_documents_by_keywords`: same accumulation over
the selected document columns. -/
def search_pdf_documents_by_keywords (db : List PdfDocument) (keywords : List String) :
    List PdfSearchRow :=
  if keywords.isEmpty then []
  else
    ((keywords.map (fun kw => (db.filter (fun r => docMatches r kw)).map selectRow)).flatten).dedup

/-- Fresh auto-increment id for an insert. -/
def nextId (db : List PdfDocument) : Nat :=
  (db.map (fun r => r.id)).foldr max 0 + 1

/-- `DatabaseManager.add_pdf_document` (the successful branch of the
`INSERT OR REPLACE`): any row with the same filename is replaced, and
`analysis_status` is hard-coded to `'completed'` by the SQL statement.
A `sqlite3.Error` is caught and reported as `False`; that failure case is
modelled by the `dbFails` flag of the pipeline environment. -/
def add_pdf_document (db : List PdfDocument)
    (filename file_path title extracted_text extracted_keywords summary : String)
    (file_size : Nat) : List PdfDocument :=
  db.filter (fun r => r.filename ≠ filename) ++
    [{ id := nextId db, filename := filename, file_path := file_path, title := title,
       extracted_text := extracted_text, extracted_keywords := extracted_keywords,
       summary := summary, file_size := file_size, analysis_status := "completed" }]

end DatabaseManager

/-! ## PDFService (`src/src/services/pdf_service.py`)

The fallible external calls of the ingestion pipeline are collected in an
environment: `fitzText p` is the concatenated page text produced by the
PyMuPDF loop (or the exception it raises), `pypdf2Text p` the PyPDF2 result,
`fileSize p` the `os.path.getsize` result, `backend` the Ollama oracle, and
`dbFails f` whether the `INSERT OR REPLACE` for filename `f` raises a
`sqlite3.Error` (caught by `add_pdf_document`, which then returns `False`).
`db_manager` is assumed present (the constructor wires one in). -/

namespace PDFService

structure PdfEnv where
  fileExists : String → Bool
  fitzText : String → Except String String
  pypdf2Text : String → Except String String
  fileSize : String → Except String Nat
  backend : String → AIService.BackendOutcome
  dbFails : String → Bool

/-- `os.path.basename` (POSIX separator). -/
def basename (p : String) : String :=
  match (Py.splitChar '/' p).reverse with
  | [] => p
  | x :: _ => x

/-- `PDFService._extract_keywords_from_filename`: drop the `.pdf`/`.PDF`
extension, replace underscores and hyphens with spaces. -/
def extract_keywords_from_filename (file_path : String) : String :=
  let name := Py.replace (Py.replace (basename file_path) ".pdf" "") ".PDF" ""
  Py.replace (Py.replace name "_" " ") "-" " "

/-- Character allow-list of `_clean_text`'s regex
`[^\w\s\.\,\!\?\;\:\-\(\)]` (ASCII `\w` and `\s`). -/
def allowedChar (c : Char) : Bool :=
  c.isAlphanum || c = '_' || c.isWhitespace ||
    c ∈ ['.', ',', '!', '?', ';', ':', '-', '(', ')']

/-- `PDFService._clean_text`: `' '.join(text.split())`, then remove characters
outside the allow-list. -/
def clean_text (text : String) : String :=
  ((String.intercalate " " (Py.splitWs text)).toList.filter allowedChar).asString

/-- `PDFService.extract_text_from_pdf`: PyMuPDF text, falling back to PyPDF2
when it is blank (PyPDF2's own exceptions yield `""` inside
`_extract_with_pypdf2`), then cleaning; a blank result, or an exception from
the PyMuPDF stage, falls back to filename-derived pseudo-text. -/
def rawText (env : PdfEnv) (file_path t0 : String) : String :=
  if Py.strip t0 = "" then
    (match env.pypdf2Text file_path with
     | .ok s => s
     | .error _ => "")
  else t0

def extract_text_from_pdf (env : PdfEnv) (file_path : String) : String :=
  match env.fitzText file_path with
  | .error _ => extract_keywords_from_filename file_path
  | .ok t0 =>
    if Py.strip (clean_text (rawText env file_path t0)) = ""
    then extract_keywords_from_filename file_path
    else clean_text (rawText env file_path t0)

/-- The reassignment `text = text[:4000] + "..."` guarded by
`len(text) > max_chars` in `_analyze_with_ai`; this is the string handed to
`extract_keywords` and to the summary/title helpers. -/
def aiInputText (text : String) : String :=
  if Py.strLen text > 4000 then Py.take 4000 text ++ "..." else text

/-- `PDFService._generate_summary` (its `except` branch is unreachable:
slicing and concatenation raise nothing). -/
def generate_summary (text : String) : String :=
  if Py.strLen text > 200 then Py.take 200 text ++ "..." else text

/-- The loop of `_extract_title`: first line whose stripped form has length
strictly between 3 and 100, returned stripped. -/
def firstQualifyingLine (text : String) : Option String :=
  ((Py.splitChar '\n' text).map Py.strip).find?
    (fun l => decide (3 < Py.strLen l ∧ Py.strLen l < 100))

/-- The fallback of `_extract_title`:
`filename.replace('.pdf', '').replace('_', ' ').title()`. -/
def fallbackTitle (filename : String) : String :=
  Py.title (Py.replace (Py.replace filename ".pdf" "") "_" " ")

/-- `PDFService._extract_title`. -/
def extract_title (text filename : String) : String :=
  match firstQualifyingLine text with
  | some l => l
  | none => fallbackTitle filename

structure AiAnalysis where
  keywords : String
  summary : String
  title : String
deriving DecidableEq, Repr

/-- `PDFService._analyze_with_ai`: truncate, extract keywords (joined with
commas; `','.join([])` is `''`), summarise, and title. Its `except` branch is
unreachable: `extract_keywords` catches everything and the helpers are total. -/
def analyze_with_ai (env : PdfEnv) (text filename : String) : AiAnalysis :=
  { keywords := String.intercalate ","
      (AIService.extract_keywords env.backend (aiInputText text)),
    summary := generate_summary (aiInputText text),
    title := extract_title (aiInputText text) filename }

structure AnalysisResult where
  filename : String
  file_path : String
  extracted_text : String
  extracted_keywords : String
  summary : String
  title : String
  file_size : Nat
deriving DecidableEq, Repr

/-- `PDFService.analyze_pdf_content`: empty extracted text yields `{}`
(`none`); an exception from `os.path.getsize` is caught and yields `{}`. -/
def analyze_pdf_content (env : PdfEnv) (file_path filename : String) :
    Option AnalysisResult :=
  if extract_text_from_pdf env file_path = "" then none
  else
    match env.fileSize file_path with
    | .error _ => none
    | .ok size =>
      some ⟨filename, file_path, extract_text_from_pdf env file_path,
            (analyze_with_ai env (extract_text_from_pdf env file_path) filename).keywords,
            (analyze_with_ai env (extract_text_from_pdf env file_path) filename).summary,
            (analyze_with_ai env (extract_text_from_pdf env file_path) filename).title,
            size⟩

/-- `PDFService.process_pdf_file` with a `db_manager` present: missing file →
`False`; empty analysis → `False`; database error → `False`; otherwise the
document is upserted and `True` is returned. The result pairs the success
flag with the updated table. -/
def process_pdf_file (env : PdfEnv) (file_path : String)
    (db : List DatabaseManager.PdfDocument) : Bool × List DatabaseManager.PdfDocument :=
  if !env.fileExists file_path then (false, db)
  else
    match analyze_pdf_content env file_path (basename file_path) with
    | none => (false, db)
    | some a =>
      if env.dbFails a.filename then (false, db)
      else (true, DatabaseManager.add_pdf_document db a.filename a.file_path a.title
              a.extracted_text a.extracted_keywords a.summary a.file_size)

/-- `PDFService.process_multiple_pdfs`: sequential loop building
`results[filename] = success` per path. The Python dict is modelled as the
association list in processing order (for duplicate basenames the dict keeps
the last value). -/
def process_multiple_pdfs (env : PdfEnv) :
    List String → List DatabaseManager.PdfDocument →
      List (String × Bool) × List DatabaseManager.PdfDocument
  | [], db => ([], db)
  | p :: ps, db =>
    let r := process_pdf_file env p db
    let rest := process_multiple_pdfs env ps r.snd
    ((basename p, r.fst) :: rest.fst, rest.snd)

structure PdfStats where
  total_pdfs : Nat
  analyzed_pdfs : Nat
  pending_pdfs : Nat
  analysis_rate : ℚ
deriving DecidableEq, Repr

/-- `PDFService.get_pdf_statistics` with a `db_manager` present: counts over
`get_pdf_documents()` (all rows), `analyzed` = rows with
`analysis_status == 'completed'`, `pending` = `total - analyzed`, and the rate
guarded against division by zero. Python float division is modelled exactly
over `ℚ`. -/
def get_pdf_statistics (db : List DatabaseManager.PdfDocument) : PdfStats :=
  let total := db.length
  let analyzed := (db.filter (fun p => p.analysis_status == "completed")).length
  { total_pdfs := total
    analyzed_pdfs := analyzed
    pending_pdfs := total - analyzed
    analysis_rate := if total > 0 then (analyzed : ℚ) / (total : ℚ) * 100 else 0 }

end PDFService

/-! ## CourseRecommender (`src/src/app.py`) -/

namespace App

/-- `CourseRecommender.recommend_courses`, instrumented: the result is paired
with the number of `ollama.chat` calls made and whether the course table was
queried (`search_courses_by_keywords` reached with a non-empty keyword list).
Blank input short-circuits before `extract_keywords`; an empty keyword list
short-circuits before the corpus search. -/
def recommend_courses (backend : String → AIService.BackendOutcome)
    (db : List DatabaseManager.Course) (user_input : String) :
    List DatabaseManager.Course × Nat × Bool :=
  if Py.strip user_input = "" then ([], 0, false)
  else if (AIService.extract_keywords_traced backend user_input).fst.isEmpty then
    ([], (AIService.extract_keywords_traced backend user_input).snd, false)
  else
    (DatabaseManager.search_courses_by_keywords db
        (AIService.extract_keywords_traced backend user_input).fst,
     (AIService.extract_keywords_traced backend user_input).snd, true)

end App

/-! ## Concrete environments used in examples, counterexamples and witnesses -/

/-- A reachable pipeline environment: both extraction libraries return an
empty text layer (a scanned-image-only document), the backend is down, the
file exists with size 10 and the database accepts the insert. -/
def scannedNoBackendEnv : PDFService.PdfEnv :=
  { fileExists := fun _ => true
    fitzText := fun _ => Except.ok ""
    pypdf2Text := fun _ => Except.ok ""
    fileSize := fun _ => Except.ok 10
    backend := fun _ => AIService.BackendOutcome.failure
    dbFails := fun _ => false }

/-- An environment in which the PyMuPDF extraction raises an exception while
everything else works and the backend is down. -/
def fitzRaisesEnv : PDFService.PdfEnv :=
  { fileExists := fun _ => true
    fitzText := fun _ => Except.error "boom"
    pypdf2Text := fun _ => Except.ok ""
    fileSize := fun _ => Except.ok 100
    backend := fun _ => AIService.BackendOutcome.failure
    dbFails := fun _ => false }

/-- An environment in which every file is missing. -/
def missingFileEnv : PDFService.PdfEnv :=
  { fileExists := fun _ => false
    fitzText := fun _ => Except.error "no such file"
    pypdf2Text := fun _ => Except.error "no such file"
    fileSize := fun _ => Except.error "no such file"
    backend := fun _ => AIService.BackendOutcome.failure
    dbFails := fun _ => false }

/-! ## Supporting lemmas -/

namespace Py

theorem leftmostMax_mem (counts : String → Nat) (x : String) (l : List String) :
    leftmostMax counts x l ∈ x :: l := by
  induction l generalizing x with
  | nil => simp [leftmostMax]
  | cons y ys ih =>
    simp only [leftmostMax]
    have h := ih (if counts y > counts x then y else x)
    by_cases hc : counts y > counts x
    · rw [if_pos hc] at h ⊢
      rcases List.mem_cons.mp h with h | h <;> simp [h]
    · rw [if_neg hc] at h ⊢
      rcases List.mem_cons.mp h with h | h <;> simp [h]

theorem mostCommon_subset (counts : String → Nat) (n : Nat) (l : List String) :
    ∀ w ∈ mostCommon counts n l, w ∈ l := by
  induction n generalizing l with
  | zero => cases l <;> simp [mostCommon]
  | succ n ih =>
    cases l with
    | nil => simp [mostCommon]
    | cons x xs =>
      intro w hw
      rcases List.mem_cons.mp hw with h | h
      · exact h ▸ leftmostMax_mem counts x xs
      · exact (List.erase_sublist _ _).mem (ih _ w h)

theorem mostCommon_length_le (counts : String → Nat) (n : Nat) (l : List String) :
    (mostCommon counts n l).length ≤ n := by
  induction n generalizing l with
  | zero => cases l <;> simp [mostCommon]
  | succ n ih =>
    cases l with
    | nil => simp [mostCommon]
    | cons x xs => simpa [mostCommon] using ih _

theorem dedupKeepFirstAux_subset (seen : List String) (l : List String) :
    ∀ w ∈ dedupKeepFirstAux seen l, w ∈ l := by
  induction l generalizing seen with
  | nil => simp [dedupKeepFirstAux]
  | cons x xs ih =>
    intro w hw
    simp only [dedupKeepFirstAux] at hw
    by_cases hx : x ∈ seen
    · rw [if_pos hx] at hw
      exact List.mem_cons_of_mem _ (ih seen w hw)
    · rw [if_neg hx] at hw
      rcases List.mem_cons.mp hw with h | h
      · simp [h]
      · exact List.mem_cons_of_mem _ (ih _ w h)

theorem splitCharAux_of_not_mem (sep : Char) (cs : List Char) (h : sep ∉ cs) :
    splitCharAux sep cs = [cs] := by
  induction cs with
  | nil => rfl
  | cons c rest ih =>
    have hc : c ≠ sep := fun he => h (by simp [he])
    have hr : sep ∉ rest := fun hm => h (List.mem_cons_of_mem _ hm)
    simp [splitCharAux, ih hr, hc]

theorem stripWsChars_length_le (cs : List Char) :
    (stripWsChars cs).length ≤ cs.length := by
  unfold stripWsChars
  calc ((cs.dropWhile Char.isWhitespace).reverse.dropWhile Char.isWhitespace).reverse.length
      = ((cs.dropWhile Char.isWhitespace).reverse.dropWhile Char.isWhitespace).length := by
        simp
    _ ≤ (cs.dropWhile Char.isWhitespace).reverse.length :=
        (List.dropWhile_sublist _).length_le
    _ = (cs.dropWhile Char.isWhitespace).length := by simp
    _ ≤ cs.length := (List.dropWhile_sublist _).length_le

theorem head_not_ws_of_strip_eq (c : Char) (t : List Char)
    (h : stripWsChars (c :: t) = c :: t) : c.isWhitespace = false := by
  by_contra hw
  have hw' : c.isWhitespace = true := by
    cases hcw : c.isWhitespace
    · exact absurd hcw hw
    · rfl
  have h1 : (c :: t).dropWhile Char.isWhitespace = t.dropWhile Char.isWhitespace := by
    simp [List.dropWhile_cons, hw']
  have h2 : (stripWsChars (c :: t)).length ≤ t.length := by
    unfold stripWsChars
    rw [h1]
    calc ((t.dropWhile Char.isWhitespace).reverse.dropWhile Char.isWhitespace).reverse.length
        = ((t.dropWhile Char.isWhitespace).reverse.dropWhile Char.isWhitespace).length := by simp
      _ ≤ (t.dropWhile Char.isWhitespace).reverse.length := (List.dropWhile_sublist _).length_le
      _ = (t.dropWhile Char.isWhitespace).length := by simp
      _ ≤ t.length := (List.dropWhile_sublist _).length_le
  rw [h] at h2
  simp only [List.length_cons] at h2
  omega

theorem stripWsChars_cons_append (a b : Char) (mid : List Char)
    (ha : a.isWhitespace = false) (hb : b.isWhitespace = false) :
    stripWsChars (a :: (mid ++ [b])) = a :: (mid ++ [b]) := by
  unfold stripWsChars
  rw [List.dropWhile_cons, ha]
  simp only [Bool.false_eq_true, if_false]
  rw [show (a :: (mid ++ [b])).reverse = b :: (mid.reverse ++ [a]) from by simp]
  rw [List.dropWhile_cons, hb]
  simp

end Py

namespace Py

theorem toList_asString (l : List Char) : l.asString.toList = l := rfl

theorem asString_toList (s : String) : s.toList.asString = s := rfl

theorem strLen_append (a b : String) : strLen (a ++ b) = strLen a + strLen b := by
  unfold strLen
  show (a.toList ++ b.toList).length = _
  exact List.length_append _ _

theorem strLen_take (n : Nat) (s : String) : strLen (take n s) = min n (strLen s) := by
  unfold strLen take
  rw [toList_asString]
  exact List.length_take n s.toList

theorem eq_empty_of_toList_eq_nil (s : String) (h : s.toList = []) : s = "" := by
  cases s with
  | mk data =>
    show String.mk data = String.mk []
    rw [show data = [] from h]

theorem ne_empty_of_strLen_pos (s : String) (h : 0 < strLen s) : s ≠ "" := by
  intro he
  rw [he] at h
  exact absurd h (by decide)

theorem strLen_pos_of_ne_empty (s : String) (h : s ≠ "") : 0 < strLen s := by
  cases hl : s.toList with
  | nil => exact absurd (eq_empty_of_toList_eq_nil s hl) h
  | cons c t =>
    unfold strLen
    rw [hl]
    simp

end Py

namespace AIService

theorem extract_keywords_traced_fst (backend : String → BackendOutcome) (text : String) :
    (extract_keywords_traced backend text).fst = extract_keywords backend text := by
  unfold extract_keywords_traced extract_keywords
  by_cases h : Py.strip text = "" <;> simp [h]

theorem fallback_mem_tokens (text w : String)
    (h : w ∈ fallback_keyword_extraction text) : w ∈ fallbackTokens text := by
  unfold fallback_keyword_extraction at h
  exact Py.dedupKeepFirstAux_subset [] _ w (Py.mostCommon_subset _ _ _ w h)

theorem fallbackTokens_prop (text w : String) (h : w ∈ fallbackTokens text) :
    w ≠ "" ∧ w ∉ stop_words ∧ Py.strLen w > 2 := by
  unfold fallbackTokens at h
  exact of_decide_eq_true (List.mem_filter.mp h).2

end AIService

namespace PDFService

theorem process_pdf_file_fst_db (env : PdfEnv) (p : String)
    (d d' : List DatabaseManager.PdfDocument) :
    (process_pdf_file env p d).fst = (process_pdf_file env p d').fst := by
  unfold process_pdf_file
  cases hex : env.fileExists p
  · rfl
  · simp only [Bool.not_true, Bool.false_eq_true, if_false]
    cases han : analyze_pdf_content env p (basename p) with
    | none => rfl
    | some a => cases hdb : env.dbFails a.filename <;> simp [hdb]

theorem generate_summary_aiInput (text : String) :
    generate_summary (aiInputText text) = generate_summary text := by
  unfold aiInputText
  by_cases h : Py.strLen text > 4000
  · rw [if_pos h]
    have hlen : Py.strLen (Py.take 4000 text ++ "...") = 4003 := by
      rw [Py.strLen_append, Py.strLen_take]
      have hm : min 4000 (Py.strLen text) = 4000 := by omega
      rw [hm]
      rfl
    unfold generate_summary
    rw [hlen, if_pos (by omega : (4003 : Nat) > 200), if_pos (by omega : Py.strLen text > 200)]
    have htake : Py.take 200 (Py.take 4000 text ++ "...") = Py.take 200 text := by
      show (((Py.take 4000 text ++ "...").toList).take 200).asString
          = ((text.toList).take 200).asString
      rw [show (Py.take 4000 text ++ "...").toList
            = text.toList.take 4000 ++ ['.', '.', '.'] from rfl]
      have h2 : (200 : Nat) ≤ (text.toList.take 4000).length := by
        rw [List.length_take]
        have hs : Py.strLen text = text.toList.length := rfl
        omega
      rw [List.take_append_of_le_length h2, List.take_take]
      norm_num
    rw [htake]
  · rw [if_neg h]

theorem generate_summary_aiInput_ne_empty (s : String) (h : s ≠ "") :
    generate_summary (aiInputText s) ≠ "" := by
  rw [generate_summary_aiInput]
  unfold generate_summary
  by_cases hl : Py.strLen s > 200
  · rw [if_pos hl]
    apply Py.ne_empty_of_strLen_pos
    rw [Py.strLen_append]
    have hd : Py.strLen "..." = 3 := rfl
    omega
  · rw [if_neg hl]
    exact h

theorem firstQualifyingLine_none_of_long (s : String)
    (hnl : '\n' ∉ s.toList) (hstrip : Py.strip s = s) (hlen : Py.strLen s ≥ 100) :
    firstQualifyingLine s = none := by
  unfold firstQualifyingLine
  have h1 : Py.splitChar '\n' s = [s] := by
    unfold Py.splitChar
    rw [Py.splitCharAux_of_not_mem _ _ hnl]
    show [s.toList.asString] = [s]
    rw [Py.asString_toList]
  rw [h1]
  simp only [List.map_cons, List.map_nil, hstrip]
  have hp : decide (Py.strLen s < 100) = false := decide_eq_false (by omega)
  simp [List.find?_cons, hp]

theorem extract_title_aiInput (text fn : String)
    (h1 : Py.strip text = text) (h2 : '\n' ∉ text.toList) :
    extract_title (aiInputText text) fn = extract_title text fn := by
  unfold aiInputText
  by_cases h : Py.strLen text > 4000
  · rw [if_pos h]
    obtain ⟨c, t, hct⟩ : ∃ c t, text.toList = c :: t := by
      cases hl : text.toList with
      | nil =>
        unfold Py.strLen at h
        rw [hl] at h
        exact absurd h (by decide)
      | cons c t => exact ⟨c, t, rfl⟩
    have hstripl : Py.stripWsChars text.toList = text.toList := by
      have hc := congrArg String.toList h1
      exact hc
    have hcws : c.isWhitespace = false := by
      apply Py.head_not_ws_of_strip_eq c t
      rw [← hct]
      exact hstripl
    have hT : (Py.take 4000 text ++ "...").toList
        = c :: (t.take 3999 ++ ['.', '.', '.']) := by
      rw [show (Py.take 4000 text ++ "...").toList
            = text.toList.take 4000 ++ ['.', '.', '.'] from rfl, hct,
          show (4000 : Nat) = 3999 + 1 from rfl, List.take_succ_cons]
      simp
    have hTstrip : Py.strip (Py.take 4000 text ++ "...") = Py.take 4000 text ++ "..." := by
      show (Py.stripWsChars (Py.take 4000 text ++ "...").toList).asString = _
      rw [hT,
          show t.take 3999 ++ ['.', '.', '.'] = (t.take 3999 ++ ['.', '.']) ++ ['.'] from by simp,
          Py.stripWsChars_cons_append c '.' _ hcws (by decide),
          show (c :: ((t.take 3999 ++ ['.', '.']) ++ ['.']))
            = (Py.take 4000 text ++ "...").toList from by rw [hT]; simp]
      exact Py.asString_toList _
    have hTnl : '\n' ∉ (Py.take 4000 text ++ "...").toList := by
      rw [show (Py.take 4000 text ++ "...").toList
            = text.toList.take 4000 ++ ['.', '.', '.'] from rfl]
      intro hm
      rcases List.mem_append.mp hm with hm | hm
      · exact h2 (List.mem_of_mem_take hm)
      · simp at hm
    have hTlen : Py.strLen (Py.take 4000 text ++ "...") = 4003 := by
      rw [Py.strLen_append, Py.strLen_take]
      have hm : min 4000 (Py.strLen text) = 4000 := by omega
      rw [hm]
      rfl
    unfold extract_title
    rw [firstQualifyingLine_none_of_long _ hTnl hTstrip (by omega),
        firstQualifyingLine_none_of_long text h2 h1 (by omega)]
  · rw [if_neg h]

end PDFService

/-! ## Sanity examples -/

example : AIService.fallback_keyword_extraction "I want to do data analysis with Python" =
    ["data", "analysis", "python"] := by decide

example : AIService.parseKeywords " a, b ,, c , " = ["a", "b", "c"] := by decide

example : PDFService.extract_keywords_from_filename "dir/machine_learning-intro.pdf"
    = "machine learning intro" := by decide

example : PDFService.clean_text "  Hello,   world£!  " = "Hello, world!" := by decide

/-! ## Claims -/

/-- C5: for every input text, the fallback extraction lower-cases and
tokenizes on whitespace, strips a fixed punctuation set from each token's
edges, drops tokens of length at most 2 and tokens in the built-in stop-word
set (including "want" and "with"), and returns the `MAX_KEYWORDS` most
frequent remaining tokens with ties broken by first-occurrence order; it never
fails (it is a total function, worst case `[]`), and on
"I want to do data analysis with Python" its result is non-empty and excludes
"want" and "with". The first two conjuncts state the filtering and bound for
all inputs; the concrete evaluations exhibit frequency order, tie-breaking by
first occurrence, and the required example. -/
theorem C5_fallback_extraction :
    (∀ text w, w ∈ AIService.fallback_keyword_extraction text →
        w ∈ AIService.fallbackTokens text ∧ w ∉ AIService.stop_words ∧ Py.strLen w > 2
        ∧ w ≠ "want" ∧ w ≠ "with")
  ∧ (∀ text, (AIService.fallback_keyword_extraction text).length ≤ Config.MAX_KEYWORDS)
  ∧ AIService.fallback_keyword_extraction "I want to do data analysis with Python"
      = ["data", "analysis", "python"]
  ∧ AIService.fallback_keyword_extraction "beta alpha beta" = ["beta", "alpha"]
  ∧ AIService.fallback_keyword_extraction "beta alpha beta alpha" = ["beta", "alpha"] := by
  refine ⟨?_, ?_, by decide, by decide, by decide⟩
  · intro text w hw
    have ht := AIService.fallback_mem_tokens text w hw
    have hp := AIService.fallbackTokens_prop text w ht
    refine ⟨ht, hp.2.1, hp.2.2, ?_, ?_⟩
    · intro he
      rw [he] at hp
      exact hp.2.1 (by decide)
    · intro he
      rw [he] at hp
      exact hp.2.1 (by decide)
  · intro text
    exact Py.mostCommon_length_le _ _ _

/-- Witness for C5 at a concrete input. -/
theorem C5_fallback_extraction_witness :
    "data" ∈ AIService.fallbackTokens "data python"
    ∧ "data" ∉ AIService.stop_words ∧ Py.strLen "data" > 2
    ∧ "data" ≠ "want" ∧ "data" ≠ "with" :=
  C5_fallback_extraction.1 "data python" "data" (by decide)

/-- C6: for every backend reply on the primary path (a non-blank input so the
path is reached), the reply is parsed by splitting on commas, trimming and
discarding empty fragments; a parsed count above `MAX_KEYWORDS` is truncated
to exactly the first `MAX_KEYWORDS` in reply order, and a count below
`MIN_KEYWORDS` is accepted unchanged (no padding, not a failure). -/
theorem C6_reply_parsing (text content : String) (h : Py.strip text ≠ "") :
    (AIService.extract_keywords (fun _ => AIService.BackendOutcome.ok content) text
        = AIService.clipKeywords (AIService.parseKeywords content))
  ∧ ((AIService.parseKeywords content).length > Config.MAX_KEYWORDS →
      AIService.extract_keywords (fun _ => AIService.BackendOutcome.ok content) text
          = (AIService.parseKeywords content).take Config.MAX_KEYWORDS
      ∧ (AIService.extract_keywords (fun _ => AIService.BackendOutcome.ok content) text).length
          = Config.MAX_KEYWORDS)
  ∧ ((AIService.parseKeywords content).length < Config.MIN_KEYWORDS →
      AIService.extract_keywords (fun _ => AIService.BackendOutcome.ok content) text
          = AIService.parseKeywords content) := by
  have he : AIService.extract_keywords (fun _ => AIService.BackendOutcome.ok content) text
      = AIService.clipKeywords (AIService.parseKeywords content) := by
    unfold AIService.extract_keywords
    rw [if_neg h]
  refine ⟨he, ?_, ?_⟩
  · intro hgt
    have hnlt : ¬ (AIService.parseKeywords content).length < Config.MIN_KEYWORDS := by
      unfold Config.MAX_KEYWORDS at hgt
      unfold Config.MIN_KEYWORDS
      omega
    have hclip : AIService.clipKeywords (AIService.parseKeywords content)
        = (AIService.parseKeywords content).take Config.MAX_KEYWORDS := by
      unfold AIService.clipKeywords
      rw [if_neg hnlt, if_pos hgt]
    refine ⟨he.trans hclip, ?_⟩
    rw [he, hclip, List.length_take]
    unfold Config.MAX_KEYWORDS at hgt ⊢
    omega
  · intro hlt
    rw [he]
    unfold AIService.clipKeywords
    rw [if_pos hlt]

/-- Witness for C6: a 7-term reply is truncated to the first 5 terms. -/
theorem C6_reply_parsing_witness :
    AIService.extract_keywords (fun _ => AIService.BackendOutcome.ok
        "a1, b2, c3, d4, e5, f6, g7") "machine learning"
      = ["a1", "b2", "c3", "d4", "e5"] := by
  have h := (C6_reply_parsing "machine learning" "a1, b2, c3, d4, e5, f6, g7"
      (by decide)).2.1 (by decide)
  rw [h.1]
  decide

/-- C9: `statistics()` returns total, analyzed and pending counts over all
persisted documents (under the schema's status values `pending`/`completed`,
the `total - analyzed` computed by the code equals the count of pending rows),
the rate equals `analyzed / total * 100` whenever `total > 0`, and on an empty
corpus it returns all zeros with no division-by-zero fault. -/
theorem C9_statistics (db : List DatabaseManager.PdfDocument)
    (h : ∀ p ∈ db, p.analysis_status = "pending" ∨ p.analysis_status = "completed") :
    (PDFService.get_pdf_statistics db).total_pdfs = db.length
  ∧ (PDFService.get_pdf_statistics db).analyzed_pdfs
      = (db.filter (fun p => p.analysis_status == "completed")).length
  ∧ (PDFService.get_pdf_statistics db).pending_pdfs
      = (db.filter (fun p => p.analysis_status == "pending")).length
  ∧ (0 < db.length →
      (PDFService.get_pdf_statistics db).analysis_rate
        = ((PDFService.get_pdf_statistics db).analyzed_pdfs : ℚ) / (db.length : ℚ) * 100)
  ∧ (db = [] → PDFService.get_pdf_statistics db = ⟨0, 0, 0, 0⟩) := by
  refine ⟨rfl, rfl, ?_, ?_, ?_⟩
  · show db.length - (db.filter (fun p => p.analysis_status == "completed")).length
        = (db.filter (fun p => p.analysis_status == "pending")).length
    induction db with
    | nil => rfl
    | cons p ps ih =>
      have hp := h p (List.mem_cons_self p ps)
      have hih := ih (fun q hq => h q (List.mem_cons_of_mem p hq))
      have hle : (ps.filter (fun q => q.analysis_status == "completed")).length ≤ ps.length :=
        List.length_filter_le _ _
      rcases hp with hp | hp
      · rw [List.filter_cons, List.filter_cons, hp]
        simp only [show (("pending" : String) == "completed") = false from rfl,
          show (("pending" : String) == "pending") = true from rfl,
          Bool.false_eq_true, if_false, if_true, List.length_cons]
        omega
      · rw [List.filter_cons, List.filter_cons, hp]
        simp only [show (("completed" : String) == "completed") = true from rfl,
          show (("completed" : String) == "pending") = false from rfl,
          Bool.false_eq_true, if_false, if_true, List.length_cons]
        omega
  · intro hpos
    have hr : (PDFService.get_pdf_statistics db).analysis_rate
        = if db.length > 0
          then ((db.filter (fun p => p.analysis_status == "completed")).length : ℚ)
                / (db.length : ℚ) * 100
          else 0 := rfl
    rw [hr, if_pos hpos]
    rfl
  · intro hnil
    subst hnil
    rfl

/-- Witness for C9 on a two-document corpus and the empty corpus. -/
theorem C9_statistics_witness :
    (PDFService.get_pdf_statistics
        [{ id := 1, filename := "a.pdf", file_path := "a.pdf", title := "A",
           extracted_text := "", extracted_keywords := "", summary := "",
           file_size := 1, analysis_status := "pending" },
         { id := 2, filename := "b.pdf", file_path := "b.pdf", title := "B",
           extracted_text := "t", extracted_keywords := "k", summary := "s",
           file_size := 2, analysis_status := "completed" }]).pending_pdfs = 1
    ∧ PDFService.get_pdf_statistics [] = ⟨0, 0, 0, 0⟩ := by
  constructor
  · rw [(C9_statistics _ (by decide)).2.2.1]
    decide
  · exact (C9_statistics [] (by decide)).2.2.2.2 rfl

/-- C8: for every empty or whitespace-only user input, `recommend_courses`
returns an empty sequence with zero backend calls (the KeywordExtractor
primary path is not invoked); and whenever the extracted keyword sequence is
empty, it returns an empty result without querying the course corpus. -/
theorem C8_recommend_short_circuit (backend : String → AIService.BackendOutcome)
    (db : List DatabaseManager.Course) (user_input : String) :
    (Py.strip user_input = "" →
        App.recommend_courses backend db user_input = ([], 0, false))
  ∧ (AIService.extract_keywords backend user_input = [] →
        (App.recommend_courses backend db user_input).fst = []
        ∧ (App.recommend_courses backend db user_input).snd.snd = false) := by
  constructor
  · intro hb
    unfold App.recommend_courses
    rw [if_pos hb]
  · intro hk
    unfold App.recommend_courses
    by_cases hb : Py.strip user_input = ""
    · rw [if_pos hb]
      exact ⟨rfl, rfl⟩
    · rw [if_neg hb]
      have hfst : (AIService.extract_keywords_traced backend user_input).fst = [] := by
        rw [AIService.extract_keywords_traced_fst]
        exact hk
      rw [if_pos (by rw [hfst]; rfl)]
      exact ⟨rfl, rfl⟩

/-- Witness for C8: blank input with a live backend, and a backend whose
well-formed reply parses to no keywords. -/
theorem C8_recommend_short_circuit_witness :
    App.recommend_courses (fun _ => AIService.BackendOutcome.ok "x, y") [] "   "
      = ([], 0, false)
    ∧ (App.recommend_courses (fun _ => AIService.BackendOutcome.ok ", ,") [] "math").fst = []
    ∧ (App.recommend_courses (fun _ => AIService.BackendOutcome.ok ", ,") [] "math").snd.snd
      = false := by
  refine ⟨(C8_recommend_short_circuit _ [] "   ").1 (by decide), ?_⟩
  exact (C8_recommend_short_circuit (fun _ => AIService.BackendOutcome.ok ", ,") [] "math").2
    (by decide)

/-- C3: re-ingesting a document whose filename already exists replaces the
prior record (upsert by the filename natural key): afterwards exactly one row
carries that filename (so the count did not grow), and every row with that
filename carries the later ingestion's path, title, text, keywords, summary,
size, and status `completed`. -/
theorem C3_upsert_by_filename (db : List DatabaseManager.PdfDocument)
    (f p t x k s : String) (sz : Nat)
    (hprev : 0 < (db.filter (fun r => r.filename == f)).length) :
    ((DatabaseManager.add_pdf_document db f p t x k s sz).filter
        (fun r => r.filename == f)).length = 1
  ∧ ((DatabaseManager.add_pdf_document db f p t x k s sz).filter
        (fun r => r.filename == f)).length
      ≤ (db.filter (fun r => r.filename == f)).length
  ∧ (∀ r ∈ DatabaseManager.add_pdf_document db f p t x k s sz, r.filename = f →
        r.file_path = p ∧ r.title = t ∧ r.extracted_text = x
        ∧ r.extracted_keywords = k ∧ r.summary = s ∧ r.file_size = sz
        ∧ r.analysis_status = "completed") := by
  have hflt : (DatabaseManager.add_pdf_document db f p t x k s sz).filter
      (fun r => r.filename == f)
      = [{ id := DatabaseManager.nextId db, filename := f, file_path := p, title := t,
           extracted_text := x, extracted_keywords := k, summary := s, file_size := sz,
           analysis_status := "completed" }] := by
    unfold DatabaseManager.add_pdf_document
    rw [List.filter_append]
    have h1 : (db.filter (fun r => r.filename ≠ f)).filter (fun r => r.filename == f)
        = [] := by
      rw [List.filter_eq_nil_iff]
      intro a ha
      have h2 := of_decide_eq_true (List.mem_filter.mp ha).2
      intro hbeq
      exact h2 (eq_of_beq hbeq)
    rw [h1, List.nil_append, List.filter_cons]
    simp only [beq_self_eq_true, if_true, List.filter_nil]
  refine ⟨by rw [hflt]; rfl, by rw [hflt]; simp only [List.length_singleton]; omega, ?_⟩
  intro r hr hrf
  unfold DatabaseManager.add_pdf_document at hr
  rcases List.mem_append.mp hr with hr | hr
  · have h2 := of_decide_eq_true (List.mem_filter.mp hr).2
    exact absurd hrf h2
  · rcases List.mem_singleton.mp hr with rfl
    exact ⟨rfl, rfl, rfl, rfl, rfl, rfl, rfl⟩

/-- Witness for C3: re-ingesting `a.pdf` over an existing `a.pdf` row. -/
theorem C3_upsert_by_filename_witness :
    ((DatabaseManager.add_pdf_document
        [{ id := 1, filename := "a.pdf", file_path := "a.pdf", title := "Old",
           extracted_text := "old", extracted_keywords := "old", summary := "old",
           file_size := 1, analysis_status := "completed" }]
        "a.pdf" "a.pdf" "New" "new" "new,kw" "new summary" 2).filter
      (fun r => r.filename == "a.pdf")).length = 1 :=
  (C3_upsert_by_filename _ "a.pdf" "a.pdf" "New" "new" "new,kw" "new summary" 2
    (by decide)).1

/-- C4: for every non-empty keyword list and corpus, matching is
OR-across-keywords with union across terms and de-duplication by full record:
an item matching any single keyword (case-insensitive substring over course
name/description/keyword-tags, or document title/summary/keyword-tags) is in
the result, and an item matching one or more keywords — in particular two or
more distinct ones — appears exactly once. Stated for both the course search
and the document search. -/
theorem C4_search_or_union_dedup (dbC : List DatabaseManager.Course)
    (dbD : List DatabaseManager.PdfDocument) (keywords : List String)
    (c : DatabaseManager.Course) (d : DatabaseManager.PdfSearchRow)
    (hkw : keywords ≠ []) :
    (c ∈ DatabaseManager.search_courses_by_keywords dbC keywords ↔
        c ∈ dbC ∧ ∃ kw ∈ keywords, DatabaseManager.courseMatches c kw = true)
  ∧ ((c ∈ dbC ∧ ∃ kw ∈ keywords, DatabaseManager.courseMatches c kw = true) →
        (DatabaseManager.search_courses_by_keywords dbC keywords).count c = 1)
  ∧ (d ∈ DatabaseManager.search_pdf_documents_by_keywords dbD keywords ↔
        ∃ r ∈ dbD, DatabaseManager.selectRow r = d
          ∧ ∃ kw ∈ keywords, DatabaseManager.docMatches r kw = true)
  ∧ ((∃ r ∈ dbD, DatabaseManager.selectRow r = d
          ∧ ∃ kw ∈ keywords, DatabaseManager.docMatches r kw = true) →
        (DatabaseManager.search_pdf_documents_by_keywords dbD keywords).count d = 1) := by
  have hne : keywords.isEmpty = false := by
    cases keywords with
    | nil => exact absurd rfl hkw
    | cons a l => rfl
  have hc : c ∈ DatabaseManager.search_courses_by_keywords dbC keywords ↔
      c ∈ dbC ∧ ∃ kw ∈ keywords, DatabaseManager.courseMatches c kw = true := by
    unfold DatabaseManager.search_courses_by_keywords
    rw [hne]
    simp only [Bool.false_eq_true, if_false, List.mem_dedup, List.mem_flatten, List.mem_map]
    constructor
    · rintro ⟨l, ⟨kw, hkwm, rfl⟩, hcl⟩
      have hm := List.mem_filter.mp hcl
      exact ⟨hm.1, kw, hkwm, hm.2⟩
    · rintro ⟨hcdb, kw, hkwm, hm⟩
      exact ⟨_, ⟨kw, hkwm, rfl⟩, List.mem_filter.mpr ⟨hcdb, hm⟩⟩
  have hd : d ∈ DatabaseManager.search_pdf_documents_by_keywords dbD keywords ↔
      ∃ r ∈ dbD, DatabaseManager.selectRow r = d
        ∧ ∃ kw ∈ keywords, DatabaseManager.docMatches r kw = true := by
    unfold DatabaseManager.search_pdf_documents_by_keywords
    rw [hne]
    simp only [Bool.false_eq_true, if_false, List.mem_dedup, List.mem_flatten, List.mem_map]
    constructor
    · rintro ⟨l, ⟨kw, hkwm, rfl⟩, hdl⟩
      rcases List.mem_map.mp hdl with ⟨r, hrf, hrd⟩
      have hm := List.mem_filter.mp hrf
      exact ⟨r, hm.1, hrd, kw, hkwm, hm.2⟩
    · rintro ⟨r, hrdb, hrd, kw, hkwm, hm⟩
      exact ⟨_, ⟨kw, hkwm, rfl⟩, List.mem_map.mpr ⟨r, List.mem_filter.mpr ⟨hrdb, hm⟩, hrd⟩⟩
  refine ⟨hc, ?_, hd, ?_⟩
  · intro hin
    have hmem := hc.mpr hin
    unfold DatabaseManager.search_courses_by_keywords at hmem ⊢
    rw [hne] at hmem ⊢
    simp only [Bool.false_eq_true, if_false] at hmem ⊢
    exact List.count_eq_one_of_mem (List.nodup_dedup _) hmem
  · intro hin
    have hmem := hd.mpr hin
    unfold DatabaseManager.search_pdf_documents_by_keywords at hmem ⊢
    rw [hne] at hmem ⊢
    simp only [Bool.false_eq_true, if_false] at hmem ⊢
    exact List.count_eq_one_of_mem (List.nodup_dedup _) hmem

/-- Witness for C4: the seeded Android course matches both "mobile" and
"android" and appears exactly once. -/
theorem C4_search_or_union_dedup_witness :
    (DatabaseManager.search_courses_by_keywords
        [{ name := "Android Development",
           description := "Developing Android applications with Java",
           keywords := "mobile,android,java" }]
        ["mobile", "android"]).count
      { name := "Android Development",
        description := "Developing Android applications with Java",
        keywords := "mobile,android,java" } = 1 :=
  (C4_search_or_union_dedup _ [] ["mobile", "android"] _ ⟨0, "", "", "", ""⟩
      (by decide)).2.1 ⟨by decide, "mobile", by decide, by decide⟩

/-- C1 as frozen is false: a reply missing the `message` field is a malformed
reply from the backend, yet `extract_keywords` returns `[]` directly
(`ai_service.py` line 76) instead of the fallback extraction, which on this
input would return `["python"]`. -/
theorem C1_counterexample :
    AIService.extract_keywords (fun _ => AIService.BackendOutcome.malformed)
        "python python python" = []
  ∧ AIService.fallback_keyword_extraction "python python python" = ["python"]
  ∧ AIService.extract_keywords (fun _ => AIService.BackendOutcome.malformed)
        "python python python"
      ≠ AIService.fallback_keyword_extraction "python python python" := by
  refine ⟨by decide, by decide, by decide⟩

/-- C1 amended: an exception raised on the primary path (network failure,
missing backend, or an error while reading the reply) triggers the
deterministic fallback and is never surfaced to the caller; but a
non-exceptional reply that merely lacks the `message` field yields an empty
list directly, without invoking the fallback. -/
theorem C1_error_to_fallback (text : String) (backend : String → AIService.BackendOutcome) :
    (Py.strip text ≠ "" →
      backend (AIService.keywordExtractionPrompt text) = AIService.BackendOutcome.failure →
      AIService.extract_keywords backend text = AIService.fallback_keyword_extraction text)
  ∧ (backend (AIService.keywordExtractionPrompt text) = AIService.BackendOutcome.malformed →
      AIService.extract_keywords backend text = []) := by
  constructor
  · intro hb hf
    unfold AIService.extract_keywords
    rw [if_neg hb, hf]
  · intro hf
    unfold AIService.extract_keywords
    by_cases hb : Py.strip text = ""
    · rw [if_pos hb]
    · rw [if_neg hb, hf]

/-- Witness for C1 amended: with the backend down, extraction equals the
fallback result on a concrete input. -/
theorem C1_error_to_fallback_witness :
    AIService.extract_keywords (fun _ => AIService.BackendOutcome.failure)
        "data analysis with python"
      = AIService.fallback_keyword_extraction "data analysis with python"
    ∧ AIService.extract_keywords (fun _ => AIService.BackendOutcome.malformed)
        "data analysis with python" = [] := by
  refine ⟨(C1_error_to_fallback "data analysis with python" _).1 (by decide) rfl, ?_⟩
  exact (C1_error_to_fallback "data analysis with python"
    (fun _ => AIService.BackendOutcome.malformed)).2 rfl

/-- C7 as frozen is false: an exception raised by the PyMuPDF stage during
extraction is caught and recovered by the filename-derived cascade, and the
document is still ingested with success = true — the exception is not
converted to success = false. -/
theorem C7_counterexample :
    fitzRaisesEnv.fitzText "data_analysis.pdf" = Except.error "boom"
  ∧ (PDFService.process_pdf_file fitzRaisesEnv "data_analysis.pdf" []).fst = true :=
  ⟨rfl, by decide⟩

/-- C7 amended: batch ingestion processes each path independently, returning
one filename-to-success pair per path whose value is a function of that path
alone (computed here against the empty table), so no exception propagates to
abort the batch or affect the other documents' results; a missing file yields
success = false for that document only. An extraction exception recovered by
a later cascade strategy may still yield success = true. -/
theorem C7_batch_isolation (env : PDFService.PdfEnv) (paths : List String)
    (db : List DatabaseManager.PdfDocument) :
    (PDFService.process_multiple_pdfs env paths db).fst
      = paths.map (fun p => (PDFService.basename p, (PDFService.process_pdf_file env p []).fst))
  ∧ (∀ p, env.fileExists p = false → (PDFService.process_pdf_file env p db).fst = false) := by
  constructor
  · induction paths generalizing db with
    | nil => rfl
    | cons p ps ih =>
      show ((PDFService.basename p, (PDFService.process_pdf_file env p db).fst)
          :: (PDFService.process_multiple_pdfs env ps
                (PDFService.process_pdf_file env p db).snd).fst)
        = _
      rw [List.map_cons]
      rw [PDFService.process_pdf_file_fst_db env p db []]
      rw [ih _]
  · intro p hp
    unfold PDFService.process_pdf_file
    rw [hp]
    rfl

/-- Witness for C7 amended on a concrete two-element batch of missing files. -/
theorem C7_batch_isolation_witness :
    (PDFService.process_multiple_pdfs missingFileEnv ["a.pdf", "b.pdf"] []).fst
      = [("a.pdf", false), ("b.pdf", false)]
    ∧ (PDFService.process_pdf_file missingFileEnv "a.pdf" []).fst = false := by
  constructor
  · rw [(C7_batch_isolation missingFileEnv ["a.pdf", "b.pdf"] []).1]
    decide
  · exact (C7_batch_isolation missingFileEnv ["a.pdf"] []).2 "a.pdf" rfl

/-- The success branch of `process_pdf_file`: the file exists, the analysis
produced a record, and the insert does not raise. -/
theorem PDFService.process_pdf_file_eq_of_analysis (env : PDFService.PdfEnv)
    (p : String) (db : List DatabaseManager.PdfDocument) (a : PDFService.AnalysisResult)
    (hex : env.fileExists p = true)
    (ha : PDFService.analyze_pdf_content env p (PDFService.basename p) = some a)
    (hdb : env.dbFails a.filename = false) :
    PDFService.process_pdf_file env p db
      = (true, DatabaseManager.add_pdf_document db a.filename a.file_path a.title
          a.extracted_text a.extracted_keywords a.summary a.file_size) := by
  unfold PDFService.process_pdf_file
  rw [hex, ha]
  show (if (!true) = true then (false, db)
      else if env.dbFails a.filename = true then (false, db)
      else (true, DatabaseManager.add_pdf_document db a.filename a.file_path a.title
        a.extracted_text a.extracted_keywords a.summary a.file_size)) = _
  rw [hdb]
  rfl

/-- C2 as frozen is false: for `do.pdf`, both extraction strategies yield
nothing and the backend is down; the record IS persisted with status
completed and a filename-derived summary, but its keyword-tag set is the
empty string ("do" is a stop word of length 2), contradicting the claimed
non-empty keyword-tag set. -/
theorem C2_counterexample :
    scannedNoBackendEnv.fitzText "do.pdf" = Except.ok ""
  ∧ scannedNoBackendEnv.pypdf2Text "do.pdf" = Except.ok ""
  ∧ PDFService.process_pdf_file scannedNoBackendEnv "do.pdf" []
      = (true, [{ id := 1, filename := "do.pdf", file_path := "do.pdf", title := "Do",
                  extracted_text := "do", extracted_keywords := "", summary := "do",
                  file_size := 10, analysis_status := "completed" }]) :=
  ⟨rfl, rfl, by decide⟩

set_option maxHeartbeats 1000000 in
/-- C2 amended: when every text-extraction strategy yields nothing but the
filename-derived pseudo-text is non-empty, ingestion still persists the
record with analysis status completed (never pending) and with extracted
text and a non-empty summary derived solely from the filename; the
keyword-tag set is likewise derived from the filename-derived pseudo-text but
may be empty (for example when no filename token survives the fallback's
length and stop-word filters). -/
theorem C2_degraded_ingestion (env : PDFService.PdfEnv) (path : String)
    (db : List DatabaseManager.PdfDocument) (sz : Nat)
    (hfitz : env.fitzText path = Except.ok "")
    (hpy : env.pypdf2Text path = Except.ok "")
    (hfd : PDFService.extract_keywords_from_filename path ≠ "")
    (hsz : env.fileSize path = Except.ok sz)
    (hex : env.fileExists path = true)
    (hdb : env.dbFails (PDFService.basename path) = false) :
    (PDFService.process_pdf_file env path db).fst = true
  ∧ ∃ r ∈ (PDFService.process_pdf_file env path db).snd,
      r.filename = PDFService.basename path
      ∧ r.analysis_status = "completed"
      ∧ r.extracted_text = PDFService.extract_keywords_from_filename path
      ∧ r.summary = PDFService.generate_summary
          (PDFService.aiInputText (PDFService.extract_keywords_from_filename path))
      ∧ r.summary ≠ "" := by
  have htext : PDFService.extract_text_from_pdf env path
      = PDFService.extract_keywords_from_filename path := by
    unfold PDFService.extract_text_from_pdf PDFService.rawText
    rw [hfitz]
    simp only [hpy]
    rfl
  have hana : PDFService.analyze_pdf_content env path (PDFService.basename path)
      = some ⟨PDFService.basename path, path,
              PDFService.extract_keywords_from_filename path,
              (PDFService.analyze_with_ai env
                (PDFService.extract_keywords_from_filename path)
                (PDFService.basename path)).keywords,
              (PDFService.analyze_with_ai env
                (PDFService.extract_keywords_from_filename path)
                (PDFService.basename path)).summary,
              (PDFService.analyze_with_ai env
                (PDFService.extract_keywords_from_filename path)
                (PDFService.basename path)).title,
              sz⟩ := by
    unfold PDFService.analyze_pdf_content
    rw [htext, if_neg hfd, hsz]
  have hproc := PDFService.process_pdf_file_eq_of_analysis env path db _ hex hana hdb
  constructor
  · rw [hproc]
  · rw [hproc]
    refine ⟨_, List.mem_append_right _ (List.mem_singleton_self _), rfl, rfl, rfl, rfl, ?_⟩
    exact PDFService.generate_summary_aiInput_ne_empty _ hfd

/-- Witness for C2 amended at `do.pdf` in the scanned-document environment. -/
theorem C2_degraded_ingestion_witness :
    (PDFService.process_pdf_file scannedNoBackendEnv "do.pdf" []).fst = true
    ∧ ∃ r ∈ (PDFService.process_pdf_file scannedNoBackendEnv "do.pdf" []).snd,
        r.filename = PDFService.basename "do.pdf"
        ∧ r.analysis_status = "completed"
        ∧ r.extracted_text = PDFService.extract_keywords_from_filename "do.pdf"
        ∧ r.summary = PDFService.generate_summary
            (PDFService.aiInputText (PDFService.extract_keywords_from_filename "do.pdf"))
        ∧ r.summary ≠ "" :=
  C2_degraded_ingestion scannedNoBackendEnv "do.pdf" [] 10 rfl rfl (by decide) rfl rfl rfl

/-- C10: for every normalized text (whitespace-collapsed, so no newline and no
leading or trailing whitespace) and filename, the analysis step hands the
KeywordExtractor the text truncated to the fixed 4000-character budget; the
summary equals the first 200 characters of the untruncated text with an
ellipsis marker appended exactly when it was truncated; and the title equals
the result of the title rule — first line of the untruncated text whose
length is more than 3 and fewer than 100 — with the title-cased,
underscore-stripped filename as fallback when no line qualifies. -/
theorem C10_analysis_derivations (env : PDFService.PdfEnv) (text filename : String)
    (h1 : Py.strip text = text) (h2 : '\n' ∉ text.toList) :
    (PDFService.analyze_with_ai env text filename).keywords
        = String.intercalate ","
            (AIService.extract_keywords env.backend (PDFService.aiInputText text))
  ∧ PDFService.aiInputText text
        = (if Py.strLen text > 4000 then Py.take 4000 text ++ "..." else text)
  ∧ (PDFService.analyze_with_ai env text filename).summary
        = PDFService.generate_summary text
  ∧ (PDFService.analyze_with_ai env text filename).summary
        = (if Py.strLen text > 200 then Py.take 200 text ++ "..." else text)
  ∧ (PDFService.analyze_with_ai env text filename).title
        = PDFService.extract_title text filename := by
  refine ⟨rfl, rfl, ?_, ?_, ?_⟩
  · exact PDFService.generate_summary_aiInput text
  · rw [show (PDFService.analyze_with_ai env text filename).summary
        = PDFService.generate_summary (PDFService.aiInputText text) from rfl,
      PDFService.generate_summary_aiInput text]
    rfl
  · exact PDFService.extract_title_aiInput text filename h1 h2

/-- Witness for C10 on a concrete normalized text. -/
theorem C10_analysis_derivations_witness :
    (PDFService.analyze_with_ai scannedNoBackendEnv
        "Machine Learning Basics" "ml_notes.pdf").title
      = PDFService.extract_title "Machine Learning Basics" "ml_notes.pdf" :=
  (C10_analysis_derivations scannedNoBackendEnv "Machine Learning Basics" "ml_notes.pdf"
    (by decide) (by decide)).2.2.2.2
